import Mathlib

/-!
# Verification of the ai-context-cli scan-and-generate pipeline

A shallow embedding of the Go sources of `ai-context-cli` (the project
scanner, context generator and folder-tree aggregator) together with
proofs and refutations of the specification's claims about them.

Modelling conventions:
* Go strings are Lean `String`s; byte-level operations use `.data`
  (`List Char`).  `strings.ToLower` is modelled with `Char.toLower`
  (they agree on ASCII, the only range the scanner's extension lists use).
* Go `int`/`int64` counters, sizes and byte budgets are modelled as
  `Nat`/`Int`.  None of the verified claims depend on 64-bit wraparound;
  the counting invariants proved below hold in unbounded arithmetic and
  therefore also modulo 2^64.
* Filesystem state is an explicit tree (`FSEntry`); I/O errors,
  wall-clock time, and progress/cancellation channels are environment
  effects outside the embedding.  All theorems concern scans that
  complete successfully, which is what the claims quantify over.
* Recursive directory walks are mutual structural recursions over the
  tree, so every definition is executable and kernel-computable; the only
  fuel parameters are in the glob matcher, where each internal call gets
  fuel strictly larger than the number of loop iterations the Go code
  would perform, making the exhaustion branches unreachable.
-/

/-! ## String helpers (models of Go `strings` / `path/filepath` functions) -/

/-- Model of Go `strings.ToLower` (ASCII case mapping). -/
def lowerStr (s : String) : String := ⟨s.data.map Char.toLower⟩

/-- Model of Go `strings.ToUpper` (ASCII case mapping). -/
def upperStr (s : String) : String := ⟨s.data.map Char.toUpper⟩

/-- Boolean list-prefix test (model of Go `strings.HasPrefix` on byte lists). -/
def isPrefixOfB : List Char → List Char → Bool
  | [], _ => true
  | _ :: _, [] => false
  | a :: as, b :: bs => a == b && isPrefixOfB as bs

/-- Model of Go `strings.HasPrefix(s, pre)`. -/
def hasPrefixStr (s pre : String) : Bool := isPrefixOfB pre.data s.data

/-- Substring search: does `s` contain `sub`?  (model of Go `strings.Contains`). -/
def containsSubL (sub : List Char) : List Char → Bool
  | [] => isPrefixOfB sub []
  | s@(_ :: rest) => isPrefixOfB sub s || containsSubL sub rest

/-- Model of Go `strings.Contains(s, sub)`. -/
def strContains (s sub : String) : Bool := containsSubL sub.data s.data

/-- Boolean list-suffix test (model of Go `strings.HasSuffix` on byte lists). -/
def isSuffixOfB (t s : List Char) : Bool := isPrefixOfB t.reverse s.reverse

/-- Model of Go `strings.TrimSuffix(s, t)`: drop one trailing copy of `t`. -/
def trimSuffixStr (s t : String) : String :=
  if isSuffixOfB t.data s.data then ⟨s.data.take (s.data.length - t.data.length)⟩ else s

/-- Model of Go `filepath.Base`: last path element after stripping trailing
separators; `"."` for the empty path, `"/"` for all-separator paths. -/
def baseName (path : String) : String :=
  if path = "" then "." else
  let d := path.data.reverse.dropWhile (· = '/')
  if d = [] then "/" else ⟨(d.takeWhile (· ≠ '/')).reverse⟩

/-- Helper for `extOf`: walk the reversed path accumulating the suffix. -/
def extAux : List Char → List Char → String
  | [], _ => ""
  | c :: rest, acc =>
    if c = '/' then "" else if c = '.' then ⟨c :: acc⟩ else extAux rest (c :: acc)

/-- Model of Go `filepath.Ext`: the suffix of the last element beginning at the
final dot; empty when the last element has no dot. -/
def extOf (path : String) : String := extAux path.data.reverse []

/-- Model of Go `filepath.Join(dir, name)` for the already-clean paths the
scanner builds (`Clean` is the identity on them). -/
def joinPath (dir name : String) : String := dir ++ "/" ++ name

/-- Model of Go `filepath.Dir` for clean paths: everything before the last
separator; `"."` when there is none, `"/"` at the root. -/
def dirOf (path : String) : String :=
  let r := path.data.reverse
  let afterSlash := r.dropWhile (· ≠ '/')
  match afterSlash with
  | [] => "."
  | _ :: rest =>
    let d := rest.dropWhile (· = '/')
    if d = [] then "/" else ⟨d.reverse⟩

/-- Helper for `pathComponents`: split a character list at `/` separators. -/
def splitSlashAux : List Char → List Char → List String
  | [], cur => [⟨cur.reverse⟩]
  | c :: rest, cur =>
    if c = '/' then String.mk cur.reverse :: splitSlashAux rest []
    else splitSlashAux rest (c :: cur)

/-- The path components of a path string (segments between `/` separators).
Used to state what "contains `<prefix>` as a path component" means. -/
def pathComponents (path : String) : List String := splitSlashAux path.data []

/-! ## Model of Go `path/filepath.Match`

The scanner calls `filepath.Match` and discards its error, so a malformed
pattern behaves as a non-match.  The functions below transcribe the Go
standard-library algorithm (`scanChunk`, `matchChunk`, `getEsc` and the
star-skipping loop of `Match`), for a non-Windows separator `/`.  The
`fuel` arguments make the recursions structural; every internal call gets
fuel strictly larger than the number of loop iterations the Go code would
perform (bounded by the pattern length), so the `0` branch is unreachable. -/

/-- Model of Go `filepath.getEsc`: read one (possibly escaped) range
endpoint inside a character class; `none` is `ErrBadPattern`. -/
def getEsc : List Char → Option (Char × List Char)
  | [] => none
  | c :: rest =>
    if c = '-' || c = ']' then none
    else if c = '\\' then
      match rest with
      | [] => none
      | d :: rest' => if rest' = [] then none else some (d, rest')
    else if rest = [] then none else some (c, rest)

/-- The character-class loop of Go `filepath.matchChunk`: parse ranges until
the closing `]`, deciding whether `rc` belongs to the class. -/
def classRanges (fuel : Nat) (rc : Char) (negated : Bool) (chunk : List Char)
    (nrange : Nat) (acc : Bool) : Option (Bool × List Char) :=
  match fuel with
  | 0 => none
  | fuel + 1 =>
    match chunk with
    | [] => none
    | c :: rest =>
      if c = ']' then (if nrange > 0 then some (acc, rest) else none)
      else
        match getEsc (c :: rest) with
        | none => none
        | some (lo, chunk1) =>
          match chunk1 with
          | '-' :: chunk2 =>
            match getEsc chunk2 with
            | none => none
            | some (hi, chunk3) =>
              classRanges fuel rc negated chunk3 (nrange + 1)
                (acc || (decide (lo ≤ rc) && decide (rc ≤ hi)))
          | _ =>
            classRanges fuel rc negated chunk1 (nrange + 1)
              (acc || (decide (lo ≤ rc) && decide (rc ≤ lo)))

/-- Model of Go `filepath.matchChunk chunk s`: match the star-free chunk
against a prefix of `s`, returning the remaining tail of `s` and whether the
chunk matched; `none` is `ErrBadPattern`.  The `failed` flag mirrors the Go
code, which keeps scanning the chunk for pattern errors after a mismatch. -/
def matchChunk (fuel : Nat) (chunk s : List Char) (failed : Bool) :
    Option (List Char × Bool) :=
  match fuel with
  | 0 => none
  | fuel + 1 =>
    match chunk with
    | [] => some (s, !failed)
    | c :: rest =>
      let failed1 := failed || s.isEmpty
      if c = '[' then
        let step : Bool × Char × List Char :=
          if failed1 then (true, Char.ofNat 0, s)
          else
            match s with
            | [] => (true, Char.ofNat 0, s)
            | sc :: s' => (false, sc, s')
        let (negated, rest1) :=
          match rest with
          | '^' :: r => (true, r)
          | _ => (false, rest)
        match classRanges fuel step.2.1 negated rest1 0 false with
        | none => none
        | some (matched, rest2) =>
          matchChunk fuel rest2 step.2.2 (step.1 || (matched == negated))
      else if c = '?' then
        if failed1 then matchChunk fuel rest s failed1
        else
          match s with
          | [] => matchChunk fuel rest s true
          | sc :: s' => matchChunk fuel rest s' (decide (sc = '/'))
      else if c = '\\' then
        match rest with
        | [] => none
        | d :: rest' =>
          if failed1 then matchChunk fuel rest' s failed1
          else
            match s with
            | [] => matchChunk fuel rest' s true
            | sc :: s' => matchChunk fuel rest' s' (decide (d ≠ sc))
      else
        if failed1 then matchChunk fuel rest s failed1
        else
          match s with
          | [] => matchChunk fuel rest s true
          | sc :: s' => matchChunk fuel rest s' (decide (c ≠ sc))

/-- The leading-star stripper of Go `filepath.scanChunk`. -/
def stripStars : List Char → Bool → Bool × List Char
  | '*' :: rest, _ => stripStars rest true
  | p, star => (star, p)

/-- The chunk splitter of Go `filepath.scanChunk`: cut the pattern at the
next top-level `*` (stars inside `[...]` ranges do not cut). -/
def scanChunkBody : List Char → Bool → List Char × List Char
  | [], _ => ([], [])
  | c :: rest, inrange =>
    if c = '\\' then
      match rest with
      | d :: rest' =>
        let (ch, r) := scanChunkBody rest' inrange
        (c :: d :: ch, r)
      | [] => ([c], [])
    else if c = '[' then
      let (ch, r) := scanChunkBody rest true
      (c :: ch, r)
    else if c = ']' then
      let (ch, r) := scanChunkBody rest false
      (c :: ch, r)
    else if c = '*' then
      if inrange then
        let (ch, r) := scanChunkBody rest inrange
        (c :: ch, r)
      else ([], c :: rest)
    else
      let (ch, r) := scanChunkBody rest inrange
      (c :: ch, r)

/-- Model of Go `filepath.scanChunk`: `(leading star?, chunk, rest)`. -/
def scanChunk (p : List Char) : Bool × List Char × List Char :=
  let (star, p1) := stripStars p false
  let (chunk, rest) := scanChunkBody p1 false
  (star, chunk, rest)

/-- The star-skipping loop of Go `filepath.Match`: try to match `chunk` at
successive non-separator offsets.  `some none` means the loop exhausted the
name (overall non-match), `some (some t)` commits to remainder `t`, `none`
is `ErrBadPattern`. -/
def starSearch (mcFuel : Nat) (chunk : List Char) (restEmpty : Bool) :
    List Char → Option (Option (List Char))
  | [] => some none
  | c :: nm' =>
    if c = '/' then some none
    else
      match matchChunk mcFuel chunk nm' false with
      | none => none
      | some (t, true) =>
        if restEmpty && !t.isEmpty then starSearch mcFuel chunk restEmpty nm'
        else some (some t)
      | some (_, false) => starSearch mcFuel chunk restEmpty nm'

/-- The chunk loop of Go `filepath.Match`; `fuel` exceeds the number of
chunks (bounded by the pattern length), `none` is `ErrBadPattern`. -/
def goMatchAux (fuel : Nat) (pattern name : List Char) : Option Bool :=
  match fuel with
  | 0 => none
  | fuel + 1 =>
    match pattern with
    | [] => some name.isEmpty
    | _ :: _ =>
      let (star, chunk, rest) := scanChunk pattern
      if star && chunk.isEmpty then some (!name.contains '/')
      else
        let mcFuel := chunk.length + 1
        match matchChunk mcFuel chunk name false with
        | none => none
        | some (t, ok) =>
          if ok && (t.isEmpty || !rest.isEmpty) then goMatchAux fuel rest t
          else if star then
            match starSearch mcFuel chunk rest.isEmpty name with
            | none => none
            | some none => some false
            | some (some t') => goMatchAux fuel rest t'
          else some false

/-- Model of the scanner's use of Go `filepath.Match(pattern, name)`: the
callers write `matched, _ := filepath.Match(...)`, so `ErrBadPattern`
behaves as a non-match. -/
def goMatch (pattern name : String) : Bool :=
  match goMatchAux (pattern.data.length + 1) pattern.data name.data with
  | some b => b
  | none => false

/-! ## Scanner configuration and the exclusion predicate (scanner.go) -/

/-- `ScanConfig` from the scanner source.  `MaxDepth` and sizes are Go
`int`/`int64`, modelled as `Int`. -/
structure ScanConfig where
  RootPath : String
  ExcludePatterns : List String
  ExcludeExtensions : List String
  MaxDepth : Int
  MaxFileSize : Int
  IncludeHidden : Bool
  FollowSymlinks : Bool
deriving DecidableEq

/-- `DefaultScanConfig` from the scanner source. -/
def DefaultScanConfig (rootPath : String) : ScanConfig where
  RootPath := rootPath
  ExcludePatterns :=
    ["node_modules/**", ".git/**", "vendor/**", "dist/**", "build/**",
     "*.log", "*.tmp", "*.cache", ".DS_Store", "Thumbs.db"]
  ExcludeExtensions :=
    [".exe", ".dll", ".so", ".dylib",
     ".jpg", ".jpeg", ".png", ".gif", ".bmp", ".ico",
     ".mp3", ".mp4", ".avi", ".mkv", ".mov",
     ".zip", ".tar", ".gz", ".rar", ".7z",
     ".pdf", ".doc", ".docx", ".xls", ".xlsx"]
  MaxDepth := 50
  MaxFileSize := 10 * 1024 * 1024
  IncludeHidden := false
  FollowSymlinks := false

/-- `shouldExcludePath` from the scanner source: hidden-name rule, then the
extension denylist (files only), then the pattern loop.  Each pattern is
tried as a `<prefix>/**` directory pattern (substring test on the full
path), then as a glob against the base name, then as a glob against the
full path; Boolean short-circuiting reproduces the Go early returns. -/
def shouldExcludePath (cfg : ScanConfig) (path : String) (isDir : Bool) : Bool :=
  (!cfg.IncludeHidden && hasPrefixStr (baseName path) ".")
  || (!isDir && cfg.ExcludeExtensions.any (fun excludeExt =>
        lowerStr (extOf path) == excludeExt))
  || cfg.ExcludePatterns.any (fun pattern =>
        (strContains pattern "/**" && strContains path (trimSuffixStr pattern "/**"))
        || goMatch pattern (baseName path)
        || goMatch pattern path)


/-! ## Filesystem model and the scanner (scanner.go)

`FSEntry` is the abstract filesystem tree a scan traverses: a file carries
the metadata `os.Stat` would report (size, modification time) plus its
line contents (the tokens a `bufio.Scanner` would yield); a directory
carries its entries in `os.ReadDir` order.  Stat errors and unreadable
directories are I/O faults of the environment, outside this model: every
theorem below is about scans that complete successfully, which is what
the claims quantify over. -/

/-- A filesystem entry: file name, size, modification time and line
contents, or directory name, modification time and children. -/
inductive FSEntry where
  | file (name : String) (size : Int) (modTime : Int) (lines : List String)
  | dir (name : String) (modTime : Int) (children : List FSEntry)

/-- The name of an entry (what `DirEntry.Name()` returns). -/
def FSEntry.name : FSEntry → String
  | .file n _ _ _ => n
  | .dir n _ _ => n

/-- `FileInfo` from the scanner source. -/
structure FileInfo where
  Path : String
  Size : Int
  Lines : Nat
  Extension : String
  IsDirectory : Bool
  ModTime : Int
  IsExcluded : Bool
  ExcludeReason : String
deriving DecidableEq

/-- `ScanResult` from the scanner source.  The Go `Extensions` map is
modelled as an association list in key-insertion order (Go map iteration
order is randomized; only the multiset of entries is observable, and the
histogram sum is iteration-order independent). -/
structure ScanResult where
  TotalFiles : Nat
  TotalDirectories : Nat
  TotalSize : Int
  TotalLines : Nat
  ExcludedFiles : Nat
  ScanDuration : Int
  Files : List FileInfo
  Extensions : List (String × Nat)
  LargestFiles : List FileInfo
deriving DecidableEq

/-- The zero-initialised `ScanResult` that `Scan` starts from. -/
def emptyScanResult : ScanResult :=
  { TotalFiles := 0, TotalDirectories := 0, TotalSize := 0, TotalLines := 0,
    ExcludedFiles := 0, ScanDuration := 0, Files := [], Extensions := [],
    LargestFiles := [] }

/-- Increment of the Go map `result.Extensions[ext]++`: bump the existing
key or append a new one with count 1. -/
def bumpExt : List (String × Nat) → String → List (String × Nat)
  | [], k => [(k, 1)]
  | (k', v) :: rest, k =>
    if k' = k then (k', v + 1) :: rest else (k', v) :: bumpExt rest k

/-- Sum of the histogram's values (`sum(histogram.values)` in the spec). -/
def extSum (m : List (String × Nat)) : Nat := (m.map (·.2)).sum

/-- `isTextFile` from the scanner source (the caller passes the lowercased
extension); extensionless files count as possible text. -/
def isTextFile (ext : String) : Bool :=
  [".txt", ".md", ".go", ".js", ".ts", ".py", ".java", ".c", ".cpp",
   ".h", ".hpp", ".cs", ".rb", ".php", ".html", ".css", ".scss",
   ".json", ".xml", ".yaml", ".yml", ".toml", ".ini", ".cfg",
   ".sh", ".bat", ".ps1", ".sql", ".r", ".scala", ".kt", ".rs",
   ".jsx", ".tsx", ".vue", ".svelte", ".dart", ".swift", ".m"].any
    (fun textExt => ext == textExt)
  || ext == ""

/-- The counting loop of `countLines`: `lines++` per scanned line, breaking
only after the count has exceeded 100000. -/
def countLinesAux (acc : Nat) : List String → Nat
  | [] => acc
  | _ :: rest =>
    let acc' := acc + 1
    if acc' > 100000 then acc' else countLinesAux acc' rest

/-- `countLines` from the scanner source, on the file's line contents (its
error path needs an unreadable file, which is outside this model). -/
def countLines (lineTokens : List String) : Nat := countLinesAux 0 lineTokens

/-- `scanFile` from the scanner source: build the `FileInfo` for one
directory entry at `path`.  The stat-error branch needs an I/O fault and
is outside this model; a directory's stat size is modelled as 0 (the
scanner never reads it). -/
def scanFile (cfg : ScanConfig) (path : String) (e : FSEntry) : FileInfo :=
  match e with
  | .dir _ mt _ =>
    let fi : FileInfo :=
      { Path := path, Size := 0, Lines := 0, Extension := lowerStr (extOf path),
        IsDirectory := true, ModTime := mt, IsExcluded := false, ExcludeReason := "" }
    if shouldExcludePath cfg path true then
      { fi with IsExcluded := true, ExcludeReason := "Matches exclude pattern" }
    else fi
  | .file _ sz mt lineTokens =>
    let fi : FileInfo :=
      { Path := path, Size := sz, Lines := 0, Extension := lowerStr (extOf path),
        IsDirectory := false, ModTime := mt, IsExcluded := false, ExcludeReason := "" }
    if shouldExcludePath cfg path false then
      { fi with IsExcluded := true, ExcludeReason := "Matches exclude pattern" }
    else if sz > cfg.MaxFileSize then
      { fi with IsExcluded := true,
                ExcludeReason := "File too large (" ++ toString sz ++ " bytes)" }
    else if isTextFile (lowerStr (extOf path)) then
      { fi with Lines := countLines lineTokens }
    else fi

/-- The per-entry update of `scanDirectory` for a non-directory entry. -/
def fileStep (st : ScanResult) (fi : FileInfo) : ScanResult :=
  if fi.IsExcluded then { st with ExcludedFiles := st.ExcludedFiles + 1 }
  else
    { st with
      TotalFiles := st.TotalFiles + 1,
      TotalSize := st.TotalSize + fi.Size,
      TotalLines := st.TotalLines + fi.Lines,
      Extensions := bumpExt st.Extensions fi.Extension,
      Files := st.Files ++ [fi] }

mutual

/-- One iteration of the entry loop of `scanDirectory`: build the entry's
`FileInfo`; a directory entry bumps `TotalDirectories` and is recursed
into unless it is excluded (pruning) or the callee's `depth > MaxDepth`
early return fires; a file entry folds into the result via `fileStep`. -/
def scanEntry (cfg : ScanConfig) (depth : Int) (dirPath : String) (st : ScanResult) :
    FSEntry → ScanResult
  | .file n sz mt lineTokens =>
    fileStep st (scanFile cfg (joinPath dirPath n) (.file n sz mt lineTokens))
  | .dir n mt children =>
    let fullPath := joinPath dirPath n
    let fi := scanFile cfg fullPath (.dir n mt children)
    let st1 := { st with TotalDirectories := st.TotalDirectories + 1 }
    if fi.IsExcluded then st1
    else if depth + 1 > cfg.MaxDepth then st1
    else scanEntries cfg (depth + 1) fullPath st1 children

/-- The entry loop of `scanDirectory` over one directory's entries. -/
def scanEntries (cfg : ScanConfig) (depth : Int) (dirPath : String) (st : ScanResult) :
    List FSEntry → ScanResult
  | [] => st
  | e :: rest => scanEntries cfg depth dirPath (scanEntry cfg depth dirPath st e) rest

end

/-- One insertion step of the comparator-consistent model of Go
`sort.Slice` (which is unstable, so only properties holding for every
comparator-consistent ordering are claimed of anything sorted with it). -/
def orderedInsertB (le : α → α → Bool) (a : α) : List α → List α
  | [] => [a]
  | b :: l => if le a b then a :: b :: l else b :: orderedInsertB le a l

/-- Insertion sort driving `orderedInsertB`; the model of Go `sort.Slice`
with `le a b = !less(b, a)`. -/
def insertionSortB (le : α → α → Bool) : List α → List α
  | [] => []
  | a :: l => orderedInsertB le a (insertionSortB le l)

/-- `processResults` from the scanner source. -/
def processResults (st : ScanResult) : ScanResult :=
  { st with
    LargestFiles :=
      (insertionSortB (fun a b => !(decide (b.Size > a.Size))) st.Files).take 10 }

/-- `Scan` from the scanner source, on a filesystem tree given as the root
directory's entries: run `scanDirectory(RootPath, 0)` (whose first check is
`depth > MaxDepth`) from a fresh result, then post-process.  The
estimation pass and progress events do not touch the result; the
I/O-error and cancellation paths return no `ScanResult` and are outside
this model of completed scans, and `ScanDuration` is wall-clock
environment data (kept 0). -/
def Scan (cfg : ScanConfig) (es : List FSEntry) : ScanResult :=
  let st :=
    if (0 : Int) > cfg.MaxDepth then emptyScanResult
    else scanEntries cfg 0 cfg.RootPath emptyScanResult es
  processResults st

/-! ### Census of the traversal

`visitEntry`/`visitEntries` count, with exactly the traversal structure of
`scanDirectory`, the entries the scan visits: the triple is
`(included files, excluded files, directory entries)`.  They define what
the spec's "entries visited during the traversal" means. -/

mutual

/-- Census contribution of a single visited entry (including, for a
non-pruned directory, everything visited beneath it). -/
def visitEntry (cfg : ScanConfig) (depth : Int) (dirPath : String) :
    FSEntry → Nat × Nat × Nat
  | .file n sz mt lineTokens =>
    if (scanFile cfg (joinPath dirPath n) (.file n sz mt lineTokens)).IsExcluded
    then (0, 1, 0) else (1, 0, 0)
  | .dir n mt children =>
    let fullPath := joinPath dirPath n
    let fi := scanFile cfg fullPath (.dir n mt children)
    let inner :=
      if fi.IsExcluded then ((0, 0, 0) : Nat × Nat × Nat)
      else if depth + 1 > cfg.MaxDepth then (0, 0, 0)
      else visitEntries cfg (depth + 1) fullPath children
    (inner.1, inner.2.1, inner.2.2 + 1)

/-- Census of one directory level. -/
def visitEntries (cfg : ScanConfig) (depth : Int) (dirPath : String) :
    List FSEntry → Nat × Nat × Nat
  | [] => (0, 0, 0)
  | e :: rest =>
    let a := visitEntry cfg depth dirPath e
    let b := visitEntries cfg depth dirPath rest
    (a.1 + b.1, a.2.1 + b.2.1, a.2.2 + b.2.2)

end

/-- The census of a whole scan, with the same top-level depth guard as
`Scan`. -/
def scanCensus (cfg : ScanConfig) (es : List FSEntry) : Nat × Nat × Nat :=
  if (0 : Int) > cfg.MaxDepth then (0, 0, 0)
  else visitEntries cfg 0 cfg.RootPath es

/-- The number of non-directory entries visited by `Scan cfg es`. -/
def visitedNonDirCount (cfg : ScanConfig) (es : List FSEntry) : Nat :=
  (scanCensus cfg es).1 + (scanCensus cfg es).2.1

/-! ## The context generator (generator.go)

File contents are read through an explicit oracle
`fsRead : String → Except String String` (path to content or error text),
the shallow embedding of the generator's sequential `os.Open`/`io.ReadAll`
calls.  `getRelativePath` depends on the process working directory (an
environment value); it is modelled by its own fallback, `filepath.Base`.
Go iterates its maps in randomized order; wherever the generator ranges
over a map, the model takes the iteration order explicitly (the
`iterOrder` parameter of `generateContentSections`) or uses the
association list's stored order (the sorted-slice builders, where only
tie order is affected). -/

/-- `ContextSection` from the generator source. -/
structure ContextSection where
  Title : String
  Content : String
  Files : List String
deriving DecidableEq

/-- `ContextResult` from the generator source (`GeneratedAt` is wall-clock
environment data, kept 0). -/
structure ContextResult where
  ProjectName : String
  GeneratedAt : Int
  TotalFiles : Nat
  TotalSize : Int
  Sections : List ContextSection
  Summary : String
  TokenEstimate : Nat
deriving DecidableEq

/-- `ContextGenerator` from the generator source. -/
structure ContextGenerator where
  maxFileSize : Int
  maxTotalSize : Int
  includeContent : Bool
  includeSummary : Bool
  priorityExtensions : List String
deriving DecidableEq

/-- `NewContextGenerator` from the generator source. -/
def NewContextGenerator : ContextGenerator where
  maxFileSize := 50 * 1024
  maxTotalSize := 10 * 1024 * 1024
  includeContent := true
  includeSummary := true
  priorityExtensions :=
    [".go", ".js", ".ts", ".py", ".java", ".c", ".cpp",
     ".md", ".txt", ".json", ".yaml", ".yml"]

/-- `SetOptions` from the generator source. -/
def ContextGenerator.SetOptions (cg : ContextGenerator) (maxFileSize maxTotalSize : Int)
    (includeContent includeSummary : Bool) : ContextGenerator :=
  { cg with maxFileSize := maxFileSize, maxTotalSize := maxTotalSize,
            includeContent := includeContent, includeSummary := includeSummary }

/-- The generator's own `isTextFile` (a shorter list than the scanner's,
and without the extensionless fallback). -/
def ContextGenerator.isTextFile (ext : String) : Bool :=
  [".txt", ".md", ".go", ".js", ".ts", ".py", ".java", ".c", ".cpp",
   ".h", ".hpp", ".cs", ".rb", ".php", ".html", ".css", ".scss",
   ".json", ".xml", ".yaml", ".yml", ".toml", ".ini", ".cfg",
   ".sh", ".bat", ".ps1", ".sql", ".r", ".scala", ".kt", ".rs"].any
    (fun textExt => ext == textExt)

/-- `getLanguageFromExtension` from the generator source (map literal
modelled as an association list; lookup misses yield `""`). -/
def ContextGenerator.getLanguageFromExtension (ext : String) : String :=
  (([(".go", "go"), (".js", "javascript"), (".ts", "typescript"),
     (".py", "python"), (".java", "java"), (".c", "c"), (".cpp", "cpp"),
     (".html", "html"), (".css", "css"), (".json", "json"),
     (".yaml", "yaml"), (".yml", "yaml"), (".md", "markdown"),
     (".sh", "bash"), (".sql", "sql")] : List (String × String)).lookup ext).getD ""

/-- Model of Go `strings.TrimPrefix(s, t)`. -/
def trimPrefixStr (s t : String) : String :=
  if hasPrefixStr s t then ⟨s.data.drop t.data.length⟩ else s

/-- `calculateFileScore` from the generator source: text-type base score,
priority-extension bonus `50 - index` (the Go loop breaks at the first
matching entry, which `List.findIdx?` reproduces),
size adjustment, and the important-name bonus on the lowercased base name. -/
def ContextGenerator.calculateFileScore (cg : ContextGenerator) (file : FileInfo) : Int :=
  (if ContextGenerator.isTextFile file.Extension then (10 : Int) else 0)
  + (match cg.priorityExtensions.findIdx? (fun ext => file.Extension == ext) with
     | some i => 50 - (i : Int)
     | none => 0)
  + (if file.Size < 1024 then (5 : Int)
     else if file.Size < 10 * 1024 then 3
     else if file.Size > 100 * 1024 then -5
     else 0)
  + (if ["readme", "main", "index", "app", "config", "package",
         "makefile", "dockerfile", "docker-compose"].any
        (fun nm => strContains (lowerStr (baseName file.Path)) nm)
     then (20 : Int) else 0)

/-- The greedy selection loop of `selectFilesForContent`: stop at the first
file that would blow the total budget, skip over-large single files,
otherwise accept and accumulate. -/
def selectLoop (maxTotal maxFile : Int) (tot : Int) : List (FileInfo × Int) → List FileInfo
  | [] => []
  | sf :: rest =>
    if tot + sf.1.Size > maxTotal then []
    else if sf.1.Size > maxFile then selectLoop maxTotal maxFile tot rest
    else sf.1 :: selectLoop maxTotal maxFile (tot + sf.1.Size) rest

/-- `selectFilesForContent` from the generator source: score, drop
non-positive scores, sort by score descending (`sort.Slice`, modelled as a
comparator-consistent insertion sort), then select greedily. -/
def ContextGenerator.selectFilesForContent (cg : ContextGenerator) (files : List FileInfo) :
    List FileInfo :=
  let scoredFiles := files.filterMap (fun f =>
    let score := ContextGenerator.calculateFileScore cg f
    if score > 0 then some (f, score) else none)
  let sorted := insertionSortB (fun a b => !(decide (b.2 > a.2))) scoredFiles
  selectLoop cg.maxTotalSize cg.maxFileSize 0 sorted

/-- Appending to one key of a Go map of slices (`m[k] = append(m[k], f)`),
modelled on an association list in key-insertion order. -/
def groupAdd : List (String × List FileInfo) → String → FileInfo → List (String × List FileInfo)
  | [], k, f => [(k, [f])]
  | (k', fs) :: rest, k, f =>
    if k' = k then (k', fs ++ [f]) :: rest else (k', fs) :: groupAdd rest k f

/-- The grouping step of `generateContentSections`: group the selected
files by extension, empty extensions keyed as `"other"`. -/
def groupFilesByType (selected : List FileInfo) : List (String × List FileInfo) :=
  selected.foldl
    (fun m f => groupAdd m (if f.Extension = "" then "other" else f.Extension) f) []

/-- The per-file loop of `generateFileContentSection`: skip over-large
files, render a `## path` heading, then the file's fenced content (or an
inline read-error marker); after a successful append, stop with a
truncation marker once the accumulated byte length exceeds
`maxTotalSize`.  Returns the content and the list of included paths. -/
def contentLoop (cg : ContextGenerator) (fsRead : String → Except String String) :
    String → List String → List FileInfo → String × List String
  | content, included, [] => (content, included)
  | content, included, f :: rest =>
    if f.Size > cg.maxFileSize then contentLoop cg fsRead content included rest
    else
      let relativePath := baseName f.Path
      let c1 := content ++ "## " ++ relativePath ++ "\n\n"
      match fsRead f.Path with
      | .error e =>
        contentLoop cg fsRead (c1 ++ "*Error reading file: " ++ e ++ "*\n\n") included rest
      | .ok fileContent =>
        let language := ContextGenerator.getLanguageFromExtension f.Extension
        let c2 := c1 ++ "```" ++ language ++ "\n" ++ fileContent ++ "\n```\n\n"
        let included' := included ++ [relativePath]
        if (c2.utf8ByteSize : Int) > cg.maxTotalSize then
          (c2 ++ "*Context truncated due to size limits*\n\n", included')
        else contentLoop cg fsRead c2 included' rest

/-- `generateFileContentSection` from the generator source (its Go error
return is always `nil`). -/
def ContextGenerator.generateFileContentSection (cg : ContextGenerator)
    (fsRead : String → Except String String) (extension : String) (files : List FileInfo) :
    ContextSection :=
  let sectionTitle :=
    if extension = "other" then "Other Files Content"
    else upperStr (trimPrefixStr extension ".") ++ " Files Content"
  let r := contentLoop cg fsRead ("# " ++ sectionTitle ++ "\n\n") [] files
  { Title := sectionTitle, Content := r.1, Files := r.2 }

/-- `generateContentSections` from the generator source.  The Go code
ranges over the `filesByType` map, whose iteration order Go randomizes;
`iterOrder` makes that order an explicit parameter (the claims below
quantify over permutations of the key set). -/
def ContextGenerator.generateContentSections (cg : ContextGenerator)
    (fsRead : String → Except String String) (iterOrder : List String)
    (files : List FileInfo) : List ContextSection :=
  let selectedFiles := ContextGenerator.selectFilesForContent cg files
  let filesByType := groupFilesByType selectedFiles
  (iterOrder.map (fun ext =>
      ContextGenerator.generateFileContentSection cg fsRead ext
        ((filesByType.lookup ext).getD []))).filter
    (fun sec => !(sec.Content == ""))

/-! ### Numeric and duration formatting

`FormatSize`/`FormatNumber` print `%.1f` of a `float64` quotient; they are
modelled in exact arithmetic with round-half-to-even at one decimal (the
rounding `%.1f` applies to the exact binary quotient; the two agree
except on quotients within a double's rounding error of a `.x5`
boundary, and no claim below depends on these strings).  The duration in
the overview line is `ScanDuration.Round(time.Millisecond)` printed via
`time.Duration.String`, an integer algorithm transcribed below. -/

/-- One-decimal fixed-point rendering of `num / den` (both positive in
every use), rounding half to even. -/
def oneDecimal (num den : Int) : String :=
  let q10 := num * 10
  let d := q10 / den
  let r := q10 % den
  let rounded :=
    if 2 * r > den then d + 1
    else if 2 * r < den then d
    else if d % 2 = 0 then d else d + 1
  toString (rounded / 10) ++ "." ++ toString (rounded % 10)

/-- The unit-finding loop of `FormatSize` (`div`, `exp` accumulation); the
fuel 8 exceeds the loop count for any 64-bit size. -/
def formatSizeLoop : Nat → Int → Int → Nat → Int × Nat
  | 0, _, div, exp => (div, exp)
  | fuel + 1, n, div, exp =>
    if n ≥ 1024 then formatSizeLoop fuel (n / 1024) (div * 1024) (exp + 1)
    else (div, exp)

/-- The unit letter `"KMGTPE"[exp]` of `FormatSize`. -/
def sizeLetter (exp : Nat) : String := (["K", "M", "G", "T", "P", "E"].getD exp "?")

/-- `FormatSize` from the scanner source (the folder package contains an
identical copy). -/
def FormatSize (bytes : Int) : String :=
  if bytes < 1024 then toString bytes ++ " B"
  else
    let r := formatSizeLoop 8 (bytes / 1024) 1024 0
    oneDecimal bytes r.1 ++ " " ++ sizeLetter r.2 ++ "B"

/-- `FormatNumber` from the generator source (the folder package's
`FormatCount` is identical). -/
def FormatNumber (n : Nat) : String :=
  if n < 1000 then toString n
  else if n < 1000000 then oneDecimal (n : Int) 1000 ++ "K"
  else oneDecimal (n : Int) 1000000 ++ "M"

/-- Model of Go `time.Duration.Round(m)` on nanosecond counts (Go `%` is
truncated division, `Int.tmod`; the int64-overflow clamps are outside the
model). -/
def roundDuration (d m : Int) : Int :=
  if m ≤ 0 then d
  else
    let r := Int.tmod d m
    if d < 0 then
      let r' := -r
      if r' + r' < m then d + r' else d - m + r'
    else
      if r + r < m then d - r else d + m - r

/-- The fraction printer `fmtFrac` of `time.Duration.String`: up to `prec`
digits after the decimal point, trailing zeros omitted; returns the
printed fragment and the remaining integer part. -/
def fmtFrac : Nat → Nat → Bool → String → String × Nat
  | u, 0, print, acc => (if print then "." ++ acc else "", u)
  | u, prec + 1, print, acc =>
    let digit := u % 10
    let print' := print || decide (digit ≠ 0)
    let acc' := if print' then toString digit ++ acc else acc
    fmtFrac (u / 10) prec print' acc'

/-- Model of Go `time.Duration.String` on nanosecond counts. -/
def durationString (d : Int) : String :=
  let u := d.natAbs
  let sign := if d < 0 then "-" else ""
  if u < 1000000000 then
    if u = 0 then "0s"
    else if u < 1000 then sign ++ toString u ++ "ns"
    else if u < 1000000 then
      let r := fmtFrac u 3 false ""
      sign ++ toString r.2 ++ r.1 ++ "µs"
    else
      let r := fmtFrac u 6 false ""
      sign ++ toString r.2 ++ r.1 ++ "ms"
  else
    let r := fmtFrac u 9 false ""
    let u1 := r.2
    let secPart := toString (u1 % 60) ++ r.1 ++ "s"
    let u2 := u1 / 60
    let minHour :=
      if u2 > 0 then
        (if u2 / 60 > 0 then toString (u2 / 60) ++ "h" else "") ++ toString (u2 % 60) ++ "m"
      else ""
    sign ++ minHour ++ secPart

/-! ### The remaining section builders and `GenerateContext` -/

/-- `ExtensionCount` from the generator source. -/
structure ExtensionCount where
  Extension : String
  Count : Nat
deriving DecidableEq

/-- `sortExtensionsByCount` from the generator source: slice the histogram
map and sort by count descending.  (Go ranges the map in randomized order
and `sort.Slice` is unstable; the model slices in stored order and
insertion-sorts, one comparator-consistent outcome.) -/
def ContextGenerator.sortExtensionsByCount (extensions : List (String × Nat)) :
    List ExtensionCount :=
  insertionSortB (fun a b => !(decide (b.Count > a.Count)))
    (extensions.map (fun p => ⟨p.1, p.2⟩))

/-- `generateOverviewSection` from the generator source. -/
def ContextGenerator.generateOverviewSection (r : ScanResult) : ContextSection :=
  let extLines := String.join
    (((ContextGenerator.sortExtensionsByCount r.Extensions).take 10).map (fun ec =>
      "- **" ++ (if ec.Extension = "" then "(no extension)" else ec.Extension)
      ++ "**: " ++ toString ec.Count ++ " files\n"))
  let largestBlock :=
    if r.LargestFiles.length > 0 then
      "## Largest Files\n\n" ++ String.join
        ((r.LargestFiles.take 5).map (fun file =>
          "- **" ++ baseName file.Path ++ "**: " ++ FormatSize file.Size
          ++ " (" ++ toString file.Lines ++ " lines)\n")) ++ "\n"
    else ""
  { Title := "Project Overview",
    Content :=
      "# Project Overview\n\n"
      ++ "**Scan completed:** " ++ durationString (roundDuration r.ScanDuration 1000000) ++ "\n"
      ++ "**Total files:** " ++ toString r.TotalFiles ++ "\n"
      ++ "**Total directories:** " ++ toString r.TotalDirectories ++ "\n"
      ++ "**Total size:** " ++ FormatSize r.TotalSize ++ "\n"
      ++ "**Total lines:** " ++ FormatNumber r.TotalLines ++ "\n"
      ++ "**Excluded files:** " ++ toString r.ExcludedFiles ++ "\n\n"
      ++ "## File Extensions\n\n" ++ extLines ++ "\n" ++ largestBlock,
    Files := [] }

/-- Order-insensitive de-duplication of the Go set-of-directories map
(`dirs[dir] = true`); the caller sorts the keys, so stored order is
irrelevant. -/
def dedupAux (seen : List String) : List String → List String
  | [] => []
  | s :: rest => if seen.contains s then dedupAux seen rest else s :: dedupAux (s :: seen) rest

/-- The per-directory line loop of `buildDirectoryTree`: indexed loop with
a truncation marker once the index exceeds 50. -/
def structLines : Nat → List String → String
  | _, [] => ""
  | i, d :: rest =>
    if i > 50 then "... (truncated)\n"
    else
      let relativePath := baseName d
      let depth := (relativePath.data.filter (· = '/')).length
      String.join (List.replicate depth "  ") ++ baseName relativePath ++ "/\n"
      ++ structLines (i + 1) rest

/-- `buildDirectoryTree` from the generator source: distinct `filepath.Dir`
values of the scanned files, sorted (`sort.Strings`), rendered depth-indented. -/
def buildDirectoryTree (files : List FileInfo) : String :=
  let sortedDirs := insertionSortB (fun a b => !(decide (b < a)))
    (dedupAux [] (files.map (fun f => dirOf f.Path)))
  structLines 0 sortedDirs

/-- `generateStructureSection` from the generator source. -/
def generateStructureSection (r : ScanResult) : ContextSection :=
  { Title := "Directory Structure",
    Content := "# Directory Structure\n\n```\n" ++ buildDirectoryTree r.Files ++ "```\n\n",
    Files := [] }

/-- `sortExtensionsByPriority` from the generator source: the extension
keys sorted with priority extensions first (by their index), then by
descending file count.  (Keys are sliced in stored order; the Go loop
computing the priority index takes the last match, but the priority list
has no duplicates.) -/
def ContextGenerator.sortExtensionsByPriority (cg : ContextGenerator)
    (filesByExt : List (String × List FileInfo)) : List String :=
  let lt := fun (a b : String) =>
    match cg.priorityExtensions.findIdx? (fun pe => a == pe),
          cg.priorityExtensions.findIdx? (fun pe => b == pe) with
    | some i, some j => decide (i < j)
    | some _, none => true
    | none, some _ => false
    | none, none =>
      decide (((filesByExt.lookup a).getD []).length > ((filesByExt.lookup b).getD []).length)
  insertionSortB (fun a b => !(lt b a)) (filesByExt.map (·.1))

/-- The per-extension block of `generateFileTypeSection`. -/
def fileTypeBlock (filesByExt : List (String × List FileInfo)) (ext : String) : String :=
  let files := (filesByExt.lookup ext).getD []
  if files.length = 0 then ""
  else
    let totalSize := (files.map (·.Size)).sum
    let totalLines := (files.map (·.Lines)).sum
    "## " ++ ext ++ " Files (" ++ toString files.length ++ " files)\n\n"
    ++ "- **Total size:** " ++ FormatSize totalSize ++ "\n"
    ++ (if totalLines > 0 then "- **Total lines:** " ++ FormatNumber totalLines ++ "\n" else "")
    ++ "- **Files:**\n"
    ++ (if files.length > 20 then
          "  (Showing 20 of " ++ toString files.length ++ " files)\n" else "")
    ++ String.join ((files.take 20).map (fun file =>
         "  - " ++ baseName file.Path
         ++ (if file.Size > 1024 then " (" ++ FormatSize file.Size ++ ")" else "")
         ++ (if file.Lines > 0 then " - " ++ toString file.Lines ++ " lines" else "")
         ++ "\n"))
    ++ "\n"

/-- `generateFileTypeSection` from the generator source. -/
def ContextGenerator.generateFileTypeSection (cg : ContextGenerator) (r : ScanResult) :
    ContextSection :=
  let filesByExt := r.Files.foldl
    (fun m f => groupAdd m (if f.Extension = "" then "(no extension)" else f.Extension) f) []
  { Title := "File Type Analysis",
    Content := "# File Type Analysis\n\n" ++ String.join
      ((ContextGenerator.sortExtensionsByPriority cg filesByExt).map
        (fileTypeBlock filesByExt)),
    Files := [] }

/-- `generateSummary` from the generator source.  The dominant extension
is the strict maximum of a fold over the histogram (Go keeps the first
maximum in its randomized map order; the model folds the stored order,
and the dead `name == ""` rebranching of the Go code is reproduced). -/
def ContextGenerator.generateSummary (r : ScanResult) (sections : List ContextSection) :
    String :=
  let maxPair := r.Extensions.foldl
    (fun (acc : String × Nat) p => if p.2 > acc.2 then p else acc) ("", 0)
  let maxSentence :=
    if r.Extensions.length > 0 then
      if maxPair.1 ≠ "" then
        let name := if maxPair.1 = "" then "files without extension" else maxPair.1
        "The project primarily consists of " ++ name ++ " files ("
        ++ toString maxPair.2 ++ " files). "
      else ""
    else ""
  "## Context Summary\n\n"
  ++ "This context contains information about a project with "
  ++ toString r.TotalFiles ++ " files "
  ++ "totaling " ++ FormatSize r.TotalSize ++ " across "
  ++ toString r.TotalDirectories ++ " directories. "
  ++ maxSentence
  ++ "The context includes " ++ toString sections.length
  ++ " sections with detailed information about the project structure and contents."

/-- `estimateTokens` from the generator source: total content bytes plus
summary bytes, divided by 4. -/
def estimateTokens (sections : List ContextSection) (summary : String) : Nat :=
  ((sections.map (fun s => s.Content.utf8ByteSize)).sum + summary.utf8ByteSize) / 4

/-- Outcome of a Go call that may return a value, return an error, or
panic at runtime.  A nil-pointer dereference is a `panicked` outcome, not
an `error` return. -/
inductive GoOutcome (α : Type) where
  | ok (val : α)
  | error (msg : String)
  | panicked (msg : String)
deriving DecidableEq

/-- Does the outcome represent a returned Go `error`? -/
def GoOutcome.isError : GoOutcome α → Bool
  | .error _ => true
  | _ => false

/-- `GenerateContext` from the generator source.  Its first statement
reads `scanResult.TotalFiles` with no nil check, so a nil `scanResult`
(modelled as `none`) is a runtime panic.  On a non-nil result it builds
the overview, structure and file-type sections, the content sections when
enabled (their Go error path is dead: `generateFileContentSection` always
returns a nil error), the summary when enabled, and the token estimate. -/
def GenerateContext (cg : ContextGenerator) (fsRead : String → Except String String)
    (iterOrder : List String) (scanResult : Option ScanResult) (projectName : String) :
    GoOutcome ContextResult :=
  match scanResult with
  | none => .panicked "runtime error: invalid memory address or nil pointer dereference"
  | some r =>
    let sections :=
      [ContextGenerator.generateOverviewSection r,
       generateStructureSection r,
       ContextGenerator.generateFileTypeSection cg r]
      ++ (if cg.includeContent then
            ContextGenerator.generateContentSections cg fsRead iterOrder r.Files
          else [])
    let summary := if cg.includeSummary then ContextGenerator.generateSummary r sections else ""
    .ok { ProjectName := projectName, GeneratedAt := 0, TotalFiles := r.TotalFiles,
          TotalSize := r.TotalSize, Sections := sections, Summary := summary,
          TokenEstimate := estimateTokens sections summary }

/-! ## The folder tree (internal/folder/tree.go)

`FolderNode` mirrors the Go struct except for the `Parent` back-pointer,
which is a traversal shortcut with no ownership (the spec's own design
note); tree structure is carried by `Children` alone.  The Go methods
mutate nodes through pointers and share the `FolderTree`'s
`expandedPaths` set; the model threads the node value and the
expanded-path set explicitly.  The filesystem is the same `FSEntry` tree
the scanner uses; stat errors are environment faults outside the model. -/

/-- `SortType` from the folder source. -/
inductive SortType where
  | SortByName
  | SortBySize
  | SortByDate
  | SortByType
deriving DecidableEq

/-- `FolderStats` from the folder source (`FileTypes` modelled like the
scanner's histogram, as an association list in insertion order). -/
structure FolderStats where
  TotalFiles : Nat
  TotalDirectories : Nat
  TotalSize : Int
  LastModified : Int
  FileTypes : List (String × Nat)
deriving DecidableEq

/-- `FolderNode` from the folder source (minus the non-owning `Parent`
back-pointer). -/
inductive FolderNode where
  | mk (Name Path : String) (IsDir : Bool) (Size : Int) (FileCount DirCount : Nat)
      (ModTime : Int) (Children : List FolderNode) (IsExpanded IsSelected : Bool)
      (Level : Nat)

/-- Field accessor. -/
def FolderNode.Name : FolderNode → String
  | .mk n _ _ _ _ _ _ _ _ _ _ => n

/-- Field accessor. -/
def FolderNode.Path : FolderNode → String
  | .mk _ p _ _ _ _ _ _ _ _ _ => p

/-- Field accessor. -/
def FolderNode.IsDir : FolderNode → Bool
  | .mk _ _ d _ _ _ _ _ _ _ _ => d

/-- Field accessor. -/
def FolderNode.Size : FolderNode → Int
  | .mk _ _ _ sz _ _ _ _ _ _ _ => sz

/-- Field accessor. -/
def FolderNode.FileCount : FolderNode → Nat
  | .mk _ _ _ _ fc _ _ _ _ _ _ => fc

/-- Field accessor. -/
def FolderNode.DirCount : FolderNode → Nat
  | .mk _ _ _ _ _ dc _ _ _ _ _ => dc

/-- Field accessor. -/
def FolderNode.ModTime : FolderNode → Int
  | .mk _ _ _ _ _ _ mt _ _ _ _ => mt

/-- Field accessor. -/
def FolderNode.Children : FolderNode → List FolderNode
  | .mk _ _ _ _ _ _ _ cs _ _ _ => cs

/-- Field accessor. -/
def FolderNode.IsExpanded : FolderNode → Bool
  | .mk _ _ _ _ _ _ _ _ e _ _ => e

/-- Field accessor. -/
def FolderNode.IsSelected : FolderNode → Bool
  | .mk _ _ _ _ _ _ _ _ _ s _ => s

/-- Field accessor. -/
def FolderNode.Level : FolderNode → Nat
  | .mk _ _ _ _ _ _ _ _ _ _ l => l

/-- The folder package's only exclusion rule, inlined identically in
`loadChildren` and `GetFolderStats`:
`!ft.showHidden && strings.HasPrefix(name, ".")`. -/
def hiddenSkip (showHidden : Bool) (name : String) : Bool :=
  !showHidden && hasPrefixStr name "."

mutual

/-- The `filepath.WalkDir` callback of `GetFolderStats` applied to one
entry (and, for a non-skipped directory, its whole subtree): skip hidden
entries when `showHidden` is off (`fs.SkipDir` prunes a hidden directory),
count directories and files, accumulate sizes, bump the lowercased
extension histogram (`"(no extension)"` for none), and keep the latest
modification time. -/
def statsVisit (showHidden : Bool) (st : FolderStats) : FSEntry → FolderStats
  | .file n sz mt _ =>
    if hiddenSkip showHidden n then st
    else
      let ext := lowerStr (extOf n)
      { st with
        TotalFiles := st.TotalFiles + 1,
        TotalSize := st.TotalSize + sz,
        FileTypes := bumpExt st.FileTypes (if ext = "" then "(no extension)" else ext),
        LastModified := if mt > st.LastModified then mt else st.LastModified }
  | .dir n mt children =>
    if hiddenSkip showHidden n then st
    else
      let st1 := { st with
        TotalDirectories := st.TotalDirectories + 1,
        LastModified := if mt > st.LastModified then mt else st.LastModified }
      statsVisitList showHidden st1 children

/-- `statsVisit` folded over a directory's entries. -/
def statsVisitList (showHidden : Bool) (st : FolderStats) : List FSEntry → FolderStats
  | [] => st
  | e :: rest => statsVisitList showHidden (statsVisit showHidden st e) rest

end

/-- `GetFolderStats` from the folder source, on the folder given as name,
modification time and entries: `filepath.WalkDir` visits the root
directory itself first (so the root counts toward `TotalDirectories`, and
a hidden root with `showHidden` off yields empty stats). -/
def GetFolderStats (showHidden : Bool) (rootName : String) (rootMod : Int)
    (children : List FSEntry) : FolderStats :=
  statsVisit showHidden
    { TotalFiles := 0, TotalDirectories := 0, TotalSize := 0,
      LastModified := 0, FileTypes := [] }
    (.dir rootName rootMod children)

/-- The `sort.Slice` comparator of `sortChildren`: directories first, then
the configured key, ties broken by case-insensitive name. -/
def folderLess (sortBy : SortType) (a b : FolderNode) : Bool :=
  if a.IsDir != b.IsDir then a.IsDir
  else
    let nameLt := decide (lowerStr a.Name < lowerStr b.Name)
    match sortBy with
    | .SortBySize => if a.Size ≠ b.Size then decide (a.Size > b.Size) else nameLt
    | .SortByDate => if a.ModTime ≠ b.ModTime then decide (a.ModTime > b.ModTime) else nameLt
    | .SortByType =>
      if extOf a.Name ≠ extOf b.Name then decide (extOf a.Name < extOf b.Name) else nameLt
    | .SortByName => nameLt

/-- `sortChildren` from the folder source (`sort.Slice` modelled as a
comparator-consistent insertion sort; `sort.Slice` is unstable, so only
properties holding for every comparator-consistent ordering are claimed). -/
def sortChildren (sortBy : SortType) (children : List FolderNode) : List FolderNode :=
  insertionSortB (fun a b => !(folderLess sortBy b a)) children

mutual

/-- One iteration of the entry loop of `loadChildren`: skip hidden
entries, build the child node (directory children get their stats from a
full `GetFolderStats` walk, exactly as `calculateStats` does), and load a
directory child's own children recursively when its path is in the
expanded set and the depth guard `child.Level >= maxDepth` does not fire. -/
def loadChild (showHidden : Bool) (sortBy : SortType) (maxDepth : Nat)
    (expandedPaths : List String) (parentPath : String) (level : Nat) :
    FSEntry → Option FolderNode
  | .file n sz mt _ =>
    if hiddenSkip showHidden n then none
    else
      let fullPath := joinPath parentPath n
      some (.mk n fullPath false sz 0 0 mt [] (expandedPaths.contains fullPath) false
        (level + 1))
  | .dir n mt children =>
    if hiddenSkip showHidden n then none
    else
      let fullPath := joinPath parentPath n
      let isExp := expandedPaths.contains fullPath
      let stats := GetFolderStats showHidden n mt children
      let loaded :=
        if isExp && decide (level + 1 < maxDepth) then
          sortChildren sortBy
            (loadChildList showHidden sortBy maxDepth expandedPaths fullPath (level + 1)
              children)
        else []
      some (.mk n fullPath true stats.TotalSize stats.TotalFiles stats.TotalDirectories mt
        loaded isExp false (level + 1))

/-- The entry loop of `loadChildren` over a directory's entries (before
the final sort). -/
def loadChildList (showHidden : Bool) (sortBy : SortType) (maxDepth : Nat)
    (expandedPaths : List String) (parentPath : String) (level : Nat) :
    List FSEntry → List FolderNode
  | [] => []
  | e :: rest =>
    match loadChild showHidden sortBy maxDepth expandedPaths parentPath level e with
    | none => loadChildList showHidden sortBy maxDepth expandedPaths parentPath level rest
    | some c =>
      c :: loadChildList showHidden sortBy maxDepth expandedPaths parentPath level rest

end

/-- `loadChildren` from the folder source for a node at `parentPath` and
`level` whose directory holds `entries`: build the children and sort them.
(The caller has already checked `!node.IsDir || node.Level >= maxDepth`.) -/
def loadChildren (showHidden : Bool) (sortBy : SortType) (maxDepth : Nat)
    (expandedPaths : List String) (parentPath : String) (level : Nat)
    (entries : List FSEntry) : List FolderNode :=
  sortChildren sortBy
    (loadChildList showHidden sortBy maxDepth expandedPaths parentPath level entries)

/-- `ExpandNode` from the folder source: a no-op on files and on already
expanded nodes; otherwise mark expanded, record the path in the expanded
set, and (unless the `loadChildren` guard `node.Level >= maxDepth` makes
the reload a no-op) replace the children with a fresh `loadChildren` of
the node's current filesystem `entries`. -/
def ExpandNode (showHidden : Bool) (sortBy : SortType) (maxDepth : Nat)
    (expandedPaths : List String) (entries : List FSEntry) :
    FolderNode → FolderNode × List String
  | .mk nm p d sz fc dc mt cs isExp sel lv =>
    if !d || isExp then (.mk nm p d sz fc dc mt cs isExp sel lv, expandedPaths)
    else
      let exp' := if expandedPaths.contains p then expandedPaths else expandedPaths ++ [p]
      if lv ≥ maxDepth then (.mk nm p d sz fc dc mt cs true sel lv, exp')
      else
        (.mk nm p d sz fc dc mt (loadChildren showHidden sortBy maxDepth exp' p lv entries)
          true sel lv, exp')

mutual

/-- `CollapseNode` from the folder source: a no-op on files and collapsed
nodes; otherwise clear the expanded flag, delete the path from the
expanded set, and recursively collapse the directory children.  The
`Children` list itself is left in place. -/
def CollapseNode (expandedPaths : List String) : FolderNode → FolderNode × List String
  | .mk nm p d sz fc dc mt cs isExp sel lv =>
    if !d || !isExp then (.mk nm p d sz fc dc mt cs isExp sel lv, expandedPaths)
    else
      let exp1 := expandedPaths.filter (fun q => !(q == p))
      let r := collapseAll exp1 cs
      (.mk nm p d sz fc dc mt r.1 false sel lv, r.2)

/-- The child loop of `CollapseNode`: recursively collapse the directory
children, leaving file children untouched. -/
def collapseAll (expandedPaths : List String) : List FolderNode → List FolderNode × List String
  | [] => ([], expandedPaths)
  | c :: rest =>
    let r1 := if c.IsDir then CollapseNode expandedPaths c else (c, expandedPaths)
    let r2 := collapseAll r1.2 rest
    (r1.1 :: r2.1, r2.2)

end

/-! ## Helper lemmas -/

/-- Inserting permutes to consing. -/
theorem orderedInsertB_perm (le : α → α → Bool) (a : α) (l : List α) :
    (orderedInsertB le a l).Perm (a :: l) := by
  induction l with
  | nil => simp [orderedInsertB]
  | cons b t ih =>
    by_cases h : le a b
    · simp [orderedInsertB, h]
    · simp only [orderedInsertB, if_neg h]
      exact (ih.cons b).trans (List.Perm.swap a b t)

/-- The sort output is a permutation of its input. -/
theorem insertionSortB_perm (le : α → α → Bool) (l : List α) :
    (insertionSortB le l).Perm l := by
  induction l with
  | nil => simp [insertionSortB]
  | cons a t ih =>
    exact (orderedInsertB_perm le a (insertionSortB le t)).trans (ih.cons a)

/-- Insertion preserves pairwise `R` for any `R` that is transitive and
subsumes the comparator in both orientations. -/
theorem pairwise_orderedInsertB {R : α → α → Prop} (le : α → α → Bool)
    (htrans : Transitive R)
    (h1 : ∀ a b, le a b = true → R a b) (h2 : ∀ a b, le a b = false → R b a)
    (a : α) (l : List α) (hl : l.Pairwise R) : (orderedInsertB le a l).Pairwise R := by
  induction l with
  | nil => simp [orderedInsertB]
  | cons b t ih =>
    rcases List.pairwise_cons.mp hl with ⟨hb, ht⟩
    by_cases h : le a b
    · rw [orderedInsertB, if_pos h]
      refine List.pairwise_cons.mpr ⟨?_, hl⟩
      intro x hx
      rcases List.mem_cons.mp hx with rfl | hx
      · exact h1 a x h
      · exact htrans (h1 a b h) (hb x hx)
    · rw [orderedInsertB, if_neg h]
      refine List.pairwise_cons.mpr ⟨?_, ih ht⟩
      intro x hx
      rcases List.mem_cons.mp ((orderedInsertB_perm le a t).mem_iff.mp hx) with rfl | hx
      · exact h2 x b (by simpa using h)
      · exact hb x hx

/-- The sort output is pairwise `R` for any `R` that is transitive and
subsumes the comparator in both orientations. -/
theorem pairwise_insertionSortB {R : α → α → Prop} (le : α → α → Bool)
    (htrans : Transitive R)
    (h1 : ∀ a b, le a b = true → R a b) (h2 : ∀ a b, le a b = false → R b a)
    (l : List α) : (insertionSortB le l).Pairwise R := by
  induction l with
  | nil => simp [insertionSortB]
  | cons a t ih => exact pairwise_orderedInsertB le htrans h1 h2 a _ ih

/-- Bumping one key of the histogram raises its value sum by one. -/
theorem extSum_bumpExt (m : List (String × Nat)) (k : String) :
    extSum (bumpExt m k) = extSum m + 1 := by
  induction m with
  | nil => simp [bumpExt, extSum]
  | cons p rest ih =>
    obtain ⟨k', v⟩ := p
    by_cases h : k' = k
    · simp [bumpExt, h, extSum]
      omega
    · simp [bumpExt, h, extSum] at *
      omega

/-- Closed form of the line-counting loop below the cap. -/
theorem countLinesAux_eq (ls : List String) :
    ∀ acc, acc ≤ 100000 → countLinesAux acc ls = min (acc + ls.length) 100001 := by
  induction ls with
  | nil => intro acc h; simp [countLinesAux]; omega
  | cons l rest ih =>
    intro acc h
    simp only [countLinesAux]
    by_cases hc : acc + 1 > 100000
    · simp only [if_pos hc, List.length_cons]
      omega
    · rw [if_neg hc, ih (acc + 1) (by omega)]
      simp only [List.length_cons]
      omega

/-- `countLines` records `min(length, 100001)`: the loop breaks only
after the count has already exceeded the 100000 cap. -/
theorem countLines_eq (ls : List String) : countLines ls = min ls.length 100001 := by
  simpa using countLinesAux_eq ls 0 (by omega)

/-- The recorded line count never exceeds 100001. -/
theorem countLines_le (ls : List String) : countLines ls ≤ 100001 := by
  rw [countLines_eq]; omega

/-- A list is a Boolean prefix of itself extended by anything. -/
theorem isPrefixOfB_append (l r : List Char) : isPrefixOfB l (l ++ r) = true := by
  induction l with
  | nil => simp [isPrefixOfB]
  | cons c t ih => simp [isPrefixOfB, ih]

/-- A character list contains any of its suffixes. -/
theorem containsSubL_append (a b : List Char) : containsSubL b (a ++ b) = true := by
  induction a with
  | nil =>
    cases b with
    | nil => simp [containsSubL, isPrefixOfB]
    | cons c t => simp [containsSubL]; left; simpa using isPrefixOfB_append (c :: t) []
  | cons c t ih =>
    simp [containsSubL]
    right
    exact ih

/-- A string contains its own suffix (`strings.Contains(p ++ t, t)`). -/
theorem strContains_append (p t : String) : strContains (p ++ t) t = true := by
  obtain ⟨pd⟩ := p
  obtain ⟨td⟩ := t
  simpa [strContains] using containsSubL_append pd td

/-- `strings.TrimSuffix` recovers the prefix of an appended suffix. -/
theorem trimSuffixStr_append (p t : String) : trimSuffixStr (p ++ t) t = p := by
  obtain ⟨pd⟩ := p
  obtain ⟨td⟩ := t
  have hsuf : isSuffixOfB td (pd ++ td) = true := by
    simpa [isSuffixOfB, List.reverse_append] using
      isPrefixOfB_append td.reverse pd.reverse
  show trimSuffixStr ⟨pd ++ td⟩ ⟨td⟩ = ⟨pd⟩
  simp only [trimSuffixStr, hsuf, if_pos]
  congr 1
  simp

/-- The five counting equations of the scan, proved simultaneously for
every starting state by mutual functional induction over the traversal:
the walker's counters advance exactly by the census of the entries it
visits, `Files` grows by one record per included file, and the histogram
sum advances with `TotalFiles`. -/
theorem scan_census_eq (cfg : ScanConfig) :
    (∀ (depth : Int) (dirPath : String) (st : ScanResult) (e : FSEntry),
      (scanEntry cfg depth dirPath st e).TotalFiles
          = st.TotalFiles + (visitEntry cfg depth dirPath e).1
      ∧ (scanEntry cfg depth dirPath st e).ExcludedFiles
          = st.ExcludedFiles + (visitEntry cfg depth dirPath e).2.1
      ∧ (scanEntry cfg depth dirPath st e).TotalDirectories
          = st.TotalDirectories + (visitEntry cfg depth dirPath e).2.2
      ∧ (scanEntry cfg depth dirPath st e).Files.length
          = st.Files.length + (visitEntry cfg depth dirPath e).1
      ∧ extSum (scanEntry cfg depth dirPath st e).Extensions
          = extSum st.Extensions + (visitEntry cfg depth dirPath e).1)
    ∧ (∀ (depth : Int) (dirPath : String) (st : ScanResult) (es : List FSEntry),
      (scanEntries cfg depth dirPath st es).TotalFiles
          = st.TotalFiles + (visitEntries cfg depth dirPath es).1
      ∧ (scanEntries cfg depth dirPath st es).ExcludedFiles
          = st.ExcludedFiles + (visitEntries cfg depth dirPath es).2.1
      ∧ (scanEntries cfg depth dirPath st es).TotalDirectories
          = st.TotalDirectories + (visitEntries cfg depth dirPath es).2.2
      ∧ (scanEntries cfg depth dirPath st es).Files.length
          = st.Files.length + (visitEntries cfg depth dirPath es).1
      ∧ extSum (scanEntries cfg depth dirPath st es).Extensions
          = extSum st.Extensions + (visitEntries cfg depth dirPath es).1) := by
  apply scanEntry.mutual_induct cfg
  · intro depth dirPath st n sz mt lineTokens
    simp only [scanEntry, visitEntry, fileStep]
    by_cases h : (scanFile cfg (joinPath dirPath n) (.file n sz mt lineTokens)).IsExcluded
    · simp [h]
    · simp [h, extSum_bumpExt]
  · intro depth dirPath st n mt children fullPath fi hfi
    have hfi' : (scanFile cfg (joinPath dirPath n) (FSEntry.dir n mt children)).IsExcluded
        = true := hfi
    simp [scanEntry, visitEntry, hfi']
  · intro depth dirPath st n mt children fullPath fi hfi hdepth
    have hfi' : (scanFile cfg (joinPath dirPath n) (FSEntry.dir n mt children)).IsExcluded
        = false := by simpa using hfi
    simp [scanEntry, visitEntry, hfi', hdepth]
  · intro depth dirPath st n mt children fullPath fi st1 hfi hdepth ih
    have hfi' : (scanFile cfg (joinPath dirPath n) (FSEntry.dir n mt children)).IsExcluded
        = false := by simpa using hfi
    obtain ⟨ih1, ih2, ih3, ih4, ih5⟩ := ih
    have IH1 : (scanEntries cfg (depth + 1) (joinPath dirPath n)
        { st with TotalDirectories := st.TotalDirectories + 1 } children).TotalFiles
        = st.TotalFiles + (visitEntries cfg (depth + 1) (joinPath dirPath n) children).1 := ih1
    have IH2 : (scanEntries cfg (depth + 1) (joinPath dirPath n)
        { st with TotalDirectories := st.TotalDirectories + 1 } children).ExcludedFiles
        = st.ExcludedFiles
          + (visitEntries cfg (depth + 1) (joinPath dirPath n) children).2.1 := ih2
    have IH3 : (scanEntries cfg (depth + 1) (joinPath dirPath n)
        { st with TotalDirectories := st.TotalDirectories + 1 } children).TotalDirectories
        = st.TotalDirectories + 1
          + (visitEntries cfg (depth + 1) (joinPath dirPath n) children).2.2 := ih3
    have IH4 : (scanEntries cfg (depth + 1) (joinPath dirPath n)
        { st with TotalDirectories := st.TotalDirectories + 1 } children).Files.length
        = st.Files.length + (visitEntries cfg (depth + 1) (joinPath dirPath n) children).1 := ih4
    have IH5 : extSum (scanEntries cfg (depth + 1) (joinPath dirPath n)
        { st with TotalDirectories := st.TotalDirectories + 1 } children).Extensions
        = extSum st.Extensions
          + (visitEntries cfg (depth + 1) (joinPath dirPath n) children).1 := ih5
    simp only [scanEntry, visitEntry, hfi', hdepth, Bool.false_eq_true, if_false, if_neg]
    refine ⟨?_, ?_, ?_, ?_, ?_⟩ <;> · simp [IH1, IH2, IH3, IH4, IH5]; try omega
  · intro depth dirPath st
    simp [scanEntries, visitEntries]
  · intro depth dirPath st e rest ih ihs
    obtain ⟨a1, a2, a3, a4, a5⟩ := ih
    obtain ⟨b1, b2, b3, b4, b5⟩ := ihs
    simp only [scanEntries, visitEntries]
    refine ⟨?_, ?_, ?_, ?_, ?_⟩ <;> simp [a1, a2, a3, a4, a5] at b1 b2 b3 b4 b5 ⊢ <;> omega

/-! ## Claim C1 -/

/-- C1: every completed `Scan` satisfies the three counting invariants:
`TotalFiles` equals the length of `Files`; the histogram's values sum to
`TotalFiles`; and `TotalFiles + ExcludedFiles` equals the number of
non-directory entries visited during the traversal. -/
theorem C1_scan_counting_invariants (cfg : ScanConfig) (es : List FSEntry) :
    (Scan cfg es).TotalFiles = (Scan cfg es).Files.length
    ∧ extSum (Scan cfg es).Extensions = (Scan cfg es).TotalFiles
    ∧ (Scan cfg es).TotalFiles + (Scan cfg es).ExcludedFiles = visitedNonDirCount cfg es := by
  obtain ⟨h1, h2, h3, h4, h5⟩ := (scan_census_eq cfg).2 0 cfg.RootPath emptyScanResult es
  simp only [emptyScanResult, extSum, List.map_nil, List.sum_nil, List.length_nil]
    at h1 h2 h3 h4 h5
  simp only [Scan, visitedNonDirCount, scanCensus, processResults]
  by_cases hd : (0 : Int) > cfg.MaxDepth
  · simp [hd, emptyScanResult, extSum]
  · simp only [hd, if_false]
    refine ⟨?_, ?_, ?_⟩ <;> simp [h1, h2, h3, h4, h5, emptyScanResult, extSum]

/-! ## Claim C10 -/

/-- C10: every visited directory entry — an excluded (pruned) one
included — increments `TotalDirectories` (first equation, whose census
counts one per visited directory entry); `ExcludedFiles` advances only by
the excluded-file census, which counts non-directory entries only (second
equation); and processing an excluded directory entry changes the result
only by `TotalDirectories + 1` — its contents are never traversed (third
statement). -/
theorem C10_directory_entry_accounting :
    (∀ (cfg : ScanConfig) (depth : Int) (dirPath : String) (st : ScanResult)
        (es : List FSEntry),
      (scanEntries cfg depth dirPath st es).TotalDirectories
        = st.TotalDirectories + (visitEntries cfg depth dirPath es).2.2)
    ∧ (∀ (cfg : ScanConfig) (depth : Int) (dirPath : String) (st : ScanResult)
        (es : List FSEntry),
      (scanEntries cfg depth dirPath st es).ExcludedFiles
        = st.ExcludedFiles + (visitEntries cfg depth dirPath es).2.1)
    ∧ (∀ (cfg : ScanConfig) (depth : Int) (dirPath : String) (st : ScanResult)
        (n : String) (mt : Int) (children : List FSEntry),
      (scanFile cfg (joinPath dirPath n) (.dir n mt children)).IsExcluded = true →
      scanEntry cfg depth dirPath st (.dir n mt children)
        = { st with TotalDirectories := st.TotalDirectories + 1 }) := by
  refine ⟨?_, ?_, ?_⟩
  · intro cfg depth dirPath st es
    exact ((scan_census_eq cfg).2 depth dirPath st es).2.2.1
  · intro cfg depth dirPath st es
    exact ((scan_census_eq cfg).2 depth dirPath st es).2.1
  · intro cfg depth dirPath st n mt children h
    simp [scanEntry, h]

/-- Witness for C10: under the default configuration, a `node_modules`
directory entry is excluded, and processing it from the empty result
yields exactly `TotalDirectories = 1` — nothing else, its contents
untouched. -/
theorem C10_directory_entry_accounting_witness :
    (scanFile (DefaultScanConfig "/r") (joinPath "/r" "node_modules")
        (.dir "node_modules" 0 [.file "pkg.js" 10 0 []])).IsExcluded = true
    ∧ scanEntry (DefaultScanConfig "/r") 0 "/r" emptyScanResult
        (.dir "node_modules" 0 [.file "pkg.js" 10 0 []])
      = { emptyScanResult with
          TotalDirectories := emptyScanResult.TotalDirectories + 1 } :=
  ⟨by decide,
   C10_directory_entry_accounting.2.2 (DefaultScanConfig "/r") 0 "/r" emptyScanResult
     "node_modules" 0 [.file "pkg.js" 10 0 []] (by decide)⟩

/-! ## Claim C2 -/

/-- Counterexample to C2: with the single pattern `build/**`, the path
`/r/rebuild.go` is excluded by `shouldExcludePath` although `build` is not
one of its path components — the code tests `strings.Contains` on the raw
path string, not component containment. -/
theorem C2_counterexample :
    shouldExcludePath
      { RootPath := "/r", ExcludePatterns := ["build/**"], ExcludeExtensions := [],
        MaxDepth := 50, MaxFileSize := 10485760, IncludeHidden := true,
        FollowSymlinks := false } "/r/rebuild.go" false = true
    ∧ ((pathComponents "/r/rebuild.go").contains "build") = false := by
  exact ⟨by decide, by decide⟩

/-- C2 (amended): for a pattern of the form `<prefix>/**`, the exclusion
predicate excludes every path that contains `<prefix>` as a substring of
the full path string — containment as a whole path component is not
required. -/
theorem C2_prefix_pattern_excludes_substring (cfg : ScanConfig) (pre path : String)
    (isDir : Bool) (hmem : (pre ++ "/**") ∈ cfg.ExcludePatterns)
    (hsub : strContains path pre = true) :
    shouldExcludePath cfg path isDir = true := by
  have hpat : strContains (pre ++ "/**") "/**" = true := strContains_append pre "/**"
  have htrim : trimSuffixStr (pre ++ "/**") "/**" = pre := trimSuffixStr_append pre "/**"
  have hany : cfg.ExcludePatterns.any (fun pattern =>
      (strContains pattern "/**" && strContains path (trimSuffixStr pattern "/**"))
      || goMatch pattern (baseName path)
      || goMatch pattern path) = true := by
    refine List.any_eq_true.mpr ⟨pre ++ "/**", hmem, ?_⟩
    simp [hpat, htrim, hsub]
  simp [shouldExcludePath, hany]

/-- Witness for the amended C2: the default configuration's
`node_modules/**` pattern excludes `/r/node_modules/pkg/index.js`. -/
theorem C2_prefix_pattern_excludes_substring_witness :
    (("node_modules" ++ "/**") ∈ (DefaultScanConfig "/r").ExcludePatterns
      ∧ strContains "/r/node_modules/pkg/index.js" "node_modules" = true)
    ∧ shouldExcludePath (DefaultScanConfig "/r") "/r/node_modules/pkg/index.js" false
        = true :=
  ⟨⟨by decide, by decide⟩,
   C2_prefix_pattern_excludes_substring (DefaultScanConfig "/r") "node_modules"
     "/r/node_modules/pkg/index.js" false (by decide) (by decide)⟩

/-! ## Claim C7 -/

/-- Counterexample to C7: a file with 100001 lines is recorded with
`Lines = 100001`, exceeding the claimed 100000 bound — the counting loop
increments before testing the cap and breaks only once the count has
already exceeded 100000. -/
theorem C7_counterexample :
    ¬((scanFile
        { RootPath := "/r", ExcludePatterns := [], ExcludeExtensions := [],
          MaxDepth := 50, MaxFileSize := 10485760, IncludeHidden := false,
          FollowSymlinks := false } "/r/a.txt"
        (.file "a.txt" 5 0 (List.replicate 100001 "x"))).Lines ≤ 100000) := by
  have h : (scanFile
      { RootPath := "/r", ExcludePatterns := [], ExcludeExtensions := [],
        MaxDepth := 50, MaxFileSize := 10485760, IncludeHidden := false,
        FollowSymlinks := false } "/r/a.txt"
      (.file "a.txt" 5 0 (List.replicate 100001 "x"))).Lines
      = countLines (List.replicate 100001 "x") := by
    simp only [scanFile]
    rw [if_neg (by decide), if_neg (by decide), if_pos (by decide)]
  rw [h, countLines_eq, List.length_replicate]
  omega

/-- C7 (amended): the `Lines` value recorded for every scanned entry is at
most 100001 (the loop stops one line past the 100000 cap; directories,
excluded files and non-text files record 0). -/
theorem C7_line_count_cap (cfg : ScanConfig) (path : String) (e : FSEntry) :
    (scanFile cfg path e).Lines ≤ 100001 := by
  cases e with
  | dir n mt children =>
    simp only [scanFile]
    split_ifs <;> simp
  | file n sz mt lineTokens =>
    simp only [scanFile]
    split_ifs <;> simp [countLines_le]

/-- Witness for the amended C7: the 100001-line file of the
counterexample is recorded within the amended bound. -/
theorem C7_line_count_cap_witness :
    (scanFile
      { RootPath := "/r", ExcludePatterns := [], ExcludeExtensions := [],
        MaxDepth := 50, MaxFileSize := 10485760, IncludeHidden := false,
        FollowSymlinks := false } "/r/a.txt"
      (.file "a.txt" 5 0 (List.replicate 100001 "x"))).Lines ≤ 100001 :=
  C7_line_count_cap _ "/r/a.txt" _

/-! ## Claim C6 -/

/-- The greedy loop keeps the running total within the budget, admits only
files within the per-file cap, and selects only files from its input. -/
theorem selectLoop_spec (maxTotal maxFile : Int) :
    ∀ (l : List (FileInfo × Int)) (tot : Int), tot ≤ maxTotal →
      tot + ((selectLoop maxTotal maxFile tot l).map (·.Size)).sum ≤ maxTotal
      ∧ ∀ f ∈ selectLoop maxTotal maxFile tot l, f.Size ≤ maxFile ∧ f ∈ l.map (·.1) := by
  intro l
  induction l with
  | nil => intro tot htot; simp [selectLoop, htot]
  | cons sf rest ih =>
    intro tot htot
    by_cases h1 : tot + sf.1.Size > maxTotal
    · rw [selectLoop, if_pos h1]
      simp [htot]
    · rw [selectLoop, if_neg h1]
      by_cases h2 : sf.1.Size > maxFile
      · rw [if_pos h2]
        obtain ⟨ha, hb⟩ := ih tot htot
        refine ⟨ha, ?_⟩
        intro f hf
        obtain ⟨hf1, hf2⟩ := hb f hf
        exact ⟨hf1, by simp [List.mem_cons] at hf2 ⊢; tauto⟩
      · rw [if_neg h2]
        obtain ⟨ha, hb⟩ := ih (tot + sf.1.Size) (by omega)
        constructor
        · simp only [List.map_cons, List.sum_cons]
          omega
        · intro f hf
          rcases List.mem_cons.mp hf with rfl | hf
          · exact ⟨by omega, by simp⟩
          · obtain ⟨hf1, hf2⟩ := hb f hf
            exact ⟨hf1, by simp [List.mem_cons] at hf2 ⊢; tauto⟩

/-- C6: for a non-negative total budget, `selectFilesForContent` returns a
subset of its input whose sizes sum to at most `maxTotalSize`, every
selected file within `maxFileSize`. -/
theorem C6_selector_respects_budgets (cg : ContextGenerator) (files : List FileInfo)
    (hmax : 0 ≤ cg.maxTotalSize) :
    ((ContextGenerator.selectFilesForContent cg files).map (·.Size)).sum ≤ cg.maxTotalSize
    ∧ ∀ f ∈ ContextGenerator.selectFilesForContent cg files,
        f.Size ≤ cg.maxFileSize ∧ f ∈ files := by
  have hsel : ContextGenerator.selectFilesForContent cg files
      = selectLoop cg.maxTotalSize cg.maxFileSize 0
          (insertionSortB (fun a b => !(decide (b.2 > a.2)))
            (files.filterMap (fun f =>
              if ContextGenerator.calculateFileScore cg f > 0
              then some (f, ContextGenerator.calculateFileScore cg f) else none))) := rfl
  rw [hsel]
  obtain ⟨ha, hb⟩ := selectLoop_spec cg.maxTotalSize cg.maxFileSize
    (insertionSortB (fun a b => !(decide (b.2 > a.2)))
      (files.filterMap (fun f =>
        if ContextGenerator.calculateFileScore cg f > 0
        then some (f, ContextGenerator.calculateFileScore cg f) else none))) 0 hmax
  refine ⟨by omega, ?_⟩
  intro f hf
  obtain ⟨hf1, hf2⟩ := hb f hf
  refine ⟨hf1, ?_⟩
  have hperm := insertionSortB_perm (fun (a b : FileInfo × Int) => !(decide (b.2 > a.2)))
    (files.filterMap (fun f =>
      if ContextGenerator.calculateFileScore cg f > 0
      then some (f, ContextGenerator.calculateFileScore cg f) else none))
  have hmem := (hperm.map (·.1)).mem_iff.mp hf2
  obtain ⟨p, hp, hp2⟩ := List.mem_map.mp hmem
  obtain ⟨orig, horig, heq⟩ := List.mem_filterMap.mp hp
  split at heq
  · cases heq
    simpa [← hp2] using horig
  · cases heq

/-- Witness for C6 (the spec's Scenario E): two 6-KB files under a 10-KB
total budget — the selection stays within budget and keeps at most one of
them. -/
theorem C6_selector_respects_budgets_witness :
    (0 : Int) ≤ (ContextGenerator.SetOptions NewContextGenerator 51200 10240 true
        true).maxTotalSize
    ∧ (((ContextGenerator.selectFilesForContent
          (ContextGenerator.SetOptions NewContextGenerator 51200 10240 true true)
          [{ Path := "/r/a.go", Size := 6144, Lines := 10, Extension := ".go",
             IsDirectory := false, ModTime := 0, IsExcluded := false, ExcludeReason := "" },
           { Path := "/r/b.go", Size := 6144, Lines := 10, Extension := ".go",
             IsDirectory := false, ModTime := 0, IsExcluded := false,
             ExcludeReason := "" }]).map (·.Size)).sum
        ≤ (ContextGenerator.SetOptions NewContextGenerator 51200 10240 true
            true).maxTotalSize)
    ∧ (ContextGenerator.selectFilesForContent
        (ContextGenerator.SetOptions NewContextGenerator 51200 10240 true true)
        [{ Path := "/r/a.go", Size := 6144, Lines := 10, Extension := ".go",
           IsDirectory := false, ModTime := 0, IsExcluded := false, ExcludeReason := "" },
         { Path := "/r/b.go", Size := 6144, Lines := 10, Extension := ".go",
           IsDirectory := false, ModTime := 0, IsExcluded := false,
           ExcludeReason := "" }]).length ≤ 1 :=
  ⟨by decide,
   (C6_selector_respects_budgets
     (ContextGenerator.SetOptions NewContextGenerator 51200 10240 true true)
     [{ Path := "/r/a.go", Size := 6144, Lines := 10, Extension := ".go",
        IsDirectory := false, ModTime := 0, IsExcluded := false, ExcludeReason := "" },
      { Path := "/r/b.go", Size := 6144, Lines := 10, Extension := ".go",
        IsDirectory := false, ModTime := 0, IsExcluded := false, ExcludeReason := "" }]
     (by decide)).1,
   by decide⟩

/-! ## Claim C4 -/

/-- Counterexample to C4: with two selected files of different extensions,
both `[".go", ".md"]` and `[".md", ".go"]` are iteration orders of the
`filesByType` map (permutations of its key set), and the two orders
produce the per-extension content sections in different orders — Go
randomizes map iteration, so two invocations need not agree. -/
theorem C4_counterexample :
    ([".go", ".md"] : List String).Perm
      ((groupFilesByType (ContextGenerator.selectFilesForContent NewContextGenerator
        [{ Path := "/r/a.go", Size := 10, Lines := 1, Extension := ".go",
           IsDirectory := false, ModTime := 0, IsExcluded := false, ExcludeReason := "" },
         { Path := "/r/b.md", Size := 10, Lines := 1, Extension := ".md",
           IsDirectory := false, ModTime := 0, IsExcluded := false,
           ExcludeReason := "" }])).map (·.1))
    ∧ ([".md", ".go"] : List String).Perm
      ((groupFilesByType (ContextGenerator.selectFilesForContent NewContextGenerator
        [{ Path := "/r/a.go", Size := 10, Lines := 1, Extension := ".go",
           IsDirectory := false, ModTime := 0, IsExcluded := false, ExcludeReason := "" },
         { Path := "/r/b.md", Size := 10, Lines := 1, Extension := ".md",
           IsDirectory := false, ModTime := 0, IsExcluded := false,
           ExcludeReason := "" }])).map (·.1))
    ∧ ContextGenerator.generateContentSections NewContextGenerator (fun _ => Except.ok "x")
        [".go", ".md"]
        [{ Path := "/r/a.go", Size := 10, Lines := 1, Extension := ".go",
           IsDirectory := false, ModTime := 0, IsExcluded := false, ExcludeReason := "" },
         { Path := "/r/b.md", Size := 10, Lines := 1, Extension := ".md",
           IsDirectory := false, ModTime := 0, IsExcluded := false, ExcludeReason := "" }]
      ≠ ContextGenerator.generateContentSections NewContextGenerator (fun _ => Except.ok "x")
        [".md", ".go"]
        [{ Path := "/r/a.go", Size := 10, Lines := 1, Extension := ".go",
           IsDirectory := false, ModTime := 0, IsExcluded := false, ExcludeReason := "" },
         { Path := "/r/b.md", Size := 10, Lines := 1, Extension := ".md",
           IsDirectory := false, ModTime := 0, IsExcluded := false,
           ExcludeReason := "" }] := by
  refine ⟨by decide, by decide, by decide⟩

/-- C4 (amended): for a fixed map-iteration order generation is a pure
function of the `ScanResult`, and the content sections produced under two
iteration orders that are permutations of one another are themselves
permutations — only their order, driven by Go's randomized map iteration,
varies between invocations. -/
theorem C4_content_sections_perm (cg : ContextGenerator)
    (fsRead : String → Except String String) (files : List FileInfo)
    (o1 o2 : List String) (hperm : o1.Perm o2) :
    (ContextGenerator.generateContentSections cg fsRead o1 files).Perm
      (ContextGenerator.generateContentSections cg fsRead o2 files) := by
  unfold ContextGenerator.generateContentSections
  exact (hperm.map _).filter _

/-- Witness for the amended C4: the two iteration orders of the
counterexample produce permuted section lists. -/
theorem C4_content_sections_perm_witness :
    ([".go", ".md"] : List String).Perm [".md", ".go"]
    ∧ (ContextGenerator.generateContentSections NewContextGenerator (fun _ => Except.ok "x")
        [".go", ".md"]
        [{ Path := "/r/a.go", Size := 10, Lines := 1, Extension := ".go",
           IsDirectory := false, ModTime := 0, IsExcluded := false, ExcludeReason := "" }]).Perm
      (ContextGenerator.generateContentSections NewContextGenerator (fun _ => Except.ok "x")
        [".md", ".go"]
        [{ Path := "/r/a.go", Size := 10, Lines := 1, Extension := ".go",
           IsDirectory := false, ModTime := 0, IsExcluded := false, ExcludeReason := "" }]) :=
  ⟨by decide,
   C4_content_sections_perm NewContextGenerator (fun _ => Except.ok "x")
     [{ Path := "/r/a.go", Size := 10, Lines := 1, Extension := ".go",
        IsDirectory := false, ModTime := 0, IsExcluded := false, ExcludeReason := "" }]
     [".go", ".md"] [".md", ".go"] (by decide)⟩

/-! ## Claim C3 -/

/-- Counterexample to C3: calling `GenerateContext` with a nil
`ScanResult` does not return an error — it is a runtime panic (nil
pointer dereference at the first field access), contradicting the claimed
error return. -/
theorem C3_counterexample :
    (GenerateContext NewContextGenerator (fun _ => Except.error "unused") [] none
        "proj").isError = false
    ∧ GenerateContext NewContextGenerator (fun _ => Except.error "unused") [] none "proj"
      = .panicked "runtime error: invalid memory address or nil pointer dereference" :=
  ⟨rfl, rfl⟩

/-- C3 (amended): `GenerateContext` performs no nil check — its first
statement dereferences `scanResult`, so every call with a nil
`ScanResult` panics instead of returning an error. -/
theorem C3_nil_scan_result_panics (cg : ContextGenerator)
    (fsRead : String → Except String String) (iterOrder : List String)
    (projectName : String) :
    GenerateContext cg fsRead iterOrder none projectName
      = .panicked "runtime error: invalid memory address or nil pointer dereference" := rfl

/-! ## Claim C5 -/

/-- Counterexample to C5: the folder aggregator's exclusion rule is only
the hidden-name test — under the default scanner configuration the file
`app.log` is excluded by `shouldExcludePath` (pattern `*.log`) yet counted
by `GetFolderStats`, so subtree stats and full scans disagree. -/
theorem C5_counterexample :
    shouldExcludePath (DefaultScanConfig "/r") "/r/app.log" false = true
    ∧ hiddenSkip false "app.log" = false
    ∧ (Scan (DefaultScanConfig "/r") [.file "app.log" 5 0 []]).TotalFiles = 0
    ∧ (Scan (DefaultScanConfig "/r") [.file "app.log" 5 0 []]).ExcludedFiles = 1
    ∧ (GetFolderStats false "r" 0 [.file "app.log" 5 0 []]).TotalFiles = 1 := by
  refine ⟨by decide, by decide, by decide, by decide, by decide⟩

/-- C5 (amended): the aggregator's per-entry exclusion (`hiddenSkip`, the
rule inlined in `GetFolderStats` and `loadChildren`) agrees with the
Walker's `shouldExcludePath` exactly when the configuration has no
exclude patterns and no extension denylist — the aggregator implements
only the hidden-file rule. -/
theorem C5_aggregator_matches_walker_iff_hidden_only (cfg : ScanConfig) (path : String)
    (isDir : Bool) (hpat : cfg.ExcludePatterns = []) (hext : cfg.ExcludeExtensions = []) :
    shouldExcludePath cfg path isDir = hiddenSkip cfg.IncludeHidden (baseName path) := by
  simp [shouldExcludePath, hiddenSkip, hpat, hext]

/-- Witness for the amended C5: with empty pattern and extension lists the
two predicates agree on a hidden file. -/
theorem C5_aggregator_matches_walker_iff_hidden_only_witness :
    (({ RootPath := "/r", ExcludePatterns := [], ExcludeExtensions := [], MaxDepth := 50,
        MaxFileSize := 100, IncludeHidden := false,
        FollowSymlinks := false } : ScanConfig).ExcludePatterns = []
      ∧ ({ RootPath := "/r", ExcludePatterns := [], ExcludeExtensions := [],
           MaxDepth := 50, MaxFileSize := 100, IncludeHidden := false,
           FollowSymlinks := false } : ScanConfig).ExcludeExtensions = [])
    ∧ shouldExcludePath
        { RootPath := "/r", ExcludePatterns := [], ExcludeExtensions := [], MaxDepth := 50,
          MaxFileSize := 100, IncludeHidden := false, FollowSymlinks := false }
        "/r/.env" false
      = hiddenSkip false (baseName "/r/.env") :=
  ⟨⟨rfl, rfl⟩,
   C5_aggregator_matches_walker_iff_hidden_only
     { RootPath := "/r", ExcludePatterns := [], ExcludeExtensions := [], MaxDepth := 50,
       MaxFileSize := 100, IncludeHidden := false, FollowSymlinks := false }
     "/r/.env" false rfl rfl⟩

/-! ## Claim C8 -/

/-- `collapseAll` returns exactly one node per input node. -/
theorem collapseAll_length (cs : List FolderNode) :
    ∀ expandedPaths, ((collapseAll expandedPaths cs).1).length = cs.length := by
  induction cs with
  | nil => intro exp; simp [collapseAll]
  | cons c rest ih => intro exp; simp [collapseAll, ih]

/-- Counterexample to C8: collapsing an expanded directory node with one
loaded child leaves the child loaded — `CollapseNode` never empties
`Children`. -/
theorem C8_counterexample :
    ((CollapseNode ["/r/d"]
        (.mk "d" "/r/d" true 0 0 0 0
          [.mk "f.txt" "/r/d/f.txt" false 5 0 0 0 [] false false 2]
          true false 1)).1.Children).length = 1
    ∧ ¬(((CollapseNode ["/r/d"]
        (.mk "d" "/r/d" true 0 0 0 0
          [.mk "f.txt" "/r/d/f.txt" false 5 0 0 0 [] false false 2]
          true false 1)).1.Children).length = 0) := by
  refine ⟨by decide, by decide⟩

/-- C8 (amended): `CollapseNode` keeps the loaded children in memory (one
result child per input child) while clearing the expanded flag of a
directory node; children are nonetheless rebuilt on the next expansion,
because `ExpandNode` on a collapsed directory below the depth limit
replaces `Children` with a fresh `loadChildren` of the node's current
filesystem entries, independent of the children previously held. -/
theorem C8_collapse_keeps_children_expand_rebuilds :
    (∀ (expandedPaths : List String) (n : FolderNode),
      ((CollapseNode expandedPaths n).1.Children).length = n.Children.length)
    ∧ (∀ (expandedPaths : List String) (n : FolderNode),
      n.IsDir = true → (CollapseNode expandedPaths n).1.IsExpanded = false)
    ∧ (∀ (showHidden : Bool) (sortBy : SortType) (maxDepth : Nat)
        (expandedPaths : List String) (entries : List FSEntry)
        (nm p : String) (sz : Int) (fc dc : Nat) (mt : Int) (cs : List FolderNode)
        (sel : Bool) (lv : Nat), lv < maxDepth →
      (ExpandNode showHidden sortBy maxDepth expandedPaths entries
          (.mk nm p true sz fc dc mt cs false sel lv)).1.Children
        = loadChildren showHidden sortBy maxDepth
            (if expandedPaths.contains p then expandedPaths else expandedPaths ++ [p])
            p lv entries) := by
  refine ⟨?_, ?_, ?_⟩
  · intro exp n
    cases n with
    | mk nm p d sz fc dc mt cs isExp sel lv =>
      simp only [CollapseNode]
      split_ifs with h
      · rfl
      · simp [FolderNode.Children, collapseAll_length]
  · intro exp n hdir
    cases n with
    | mk nm p d sz fc dc mt cs isExp sel lv =>
      have hd : d = true := hdir
      subst hd
      simp only [CollapseNode]
      cases isExp with
      | false => simp [FolderNode.IsExpanded]
      | true => simp [FolderNode.IsExpanded]
  · intro showHidden sortBy maxDepth expandedPaths entries nm p sz fc dc mt cs sel lv hlv
    simp only [ExpandNode]
    rw [if_neg (by simp), if_neg (by omega)]
    rfl

/-- Witness for the amended C8: the counterexample's node keeps its one
child and loses its expanded flag; a collapsed sibling below the depth
limit reloads its children from the filesystem on expansion. -/
theorem C8_collapse_keeps_children_expand_rebuilds_witness :
    ((CollapseNode ["/r/d"]
        (.mk "d" "/r/d" true 0 0 0 0
          [.mk "f.txt" "/r/d/f.txt" false 5 0 0 0 [] false false 2]
          true false 1)).1.Children).length
      = (FolderNode.mk "d" "/r/d" true 0 0 0 0
          [.mk "f.txt" "/r/d/f.txt" false 5 0 0 0 [] false false 2]
          true false 1).Children.length
    ∧ ((FolderNode.mk "d" "/r/d" true 0 0 0 0
          [.mk "f.txt" "/r/d/f.txt" false 5 0 0 0 [] false false 2]
          true false 1).IsDir = true
      ∧ (CollapseNode ["/r/d"]
          (.mk "d" "/r/d" true 0 0 0 0
            [.mk "f.txt" "/r/d/f.txt" false 5 0 0 0 [] false false 2]
            true false 1)).1.IsExpanded = false)
    ∧ (1 < 10
      ∧ (ExpandNode false .SortByName 10 [] [.file "f.txt" 5 0 []]
          (.mk "d" "/r/d" true 0 0 0 0 [] false false 1)).1.Children
        = loadChildren false .SortByName 10
            (if ([] : List String).contains "/r/d" then [] else [] ++ ["/r/d"])
            "/r/d" 1 [.file "f.txt" 5 0 []]) :=
  ⟨C8_collapse_keeps_children_expand_rebuilds.1 ["/r/d"] _,
   ⟨by decide,
    C8_collapse_keeps_children_expand_rebuilds.2.1 ["/r/d"] _ (by decide)⟩,
   ⟨by decide,
    C8_collapse_keeps_children_expand_rebuilds.2.2 false .SortByName 10 [] _ "d" "/r/d"
      0 0 0 0 [] false 1 (by decide)⟩⟩

/-! ## Claim C9 -/

/-- C9: for every sort type, the sorted children satisfy pairwise
"no file precedes a directory" — every directory child precedes every
file child, because the comparator puts directories first before
consulting the configured key. -/
theorem C9_directories_sort_before_files (sortBy : SortType) (children : List FolderNode) :
    (sortChildren sortBy children).Pairwise
      (fun a b => b.IsDir = true → a.IsDir = true) := by
  apply pairwise_insertionSortB
  · intro a b c hab hbc h
    exact hab (hbc h)
  · intro a b hle hb
    by_contra ha
    have ha' : a.IsDir = false := by
      revert ha; cases a.IsDir <;> simp
    have : folderLess sortBy b a = true := by simp [folderLess, hb, ha']
    simp [this] at hle
  · intro a b hle ha
    by_contra hb
    have hb' : b.IsDir = false := by
      revert hb; cases b.IsDir <;> simp
    have : folderLess sortBy b a = false := by simp [folderLess, hb', ha]
    simp [this] at hle
